import Mathlib

/-!
Shallow embedding of the Anki flashcard app (`src/App.js`).

Strings are embedded as `List Char`.  The JavaScript string operations used by
the source (`split`, `trim`, `replace` with a string pattern, the regex
`^(.*?)(?:\s*\((.*?)\))?$`, object-literal key assignment) are modelled below,
each one translated from the behaviour of the corresponding JS builtin on the
call sites that appear in the source.  Fallible JS code (property access on
`undefined`/`null`, `JSON.parse`, the unbound identifier `t`) is modelled with
`Except`/`Option`.
-/

deriving instance DecidableEq for Except

namespace Anki

/-- The JS `\s` character class / `String.prototype.trim` whitespace set,
restricted to the ASCII range (the source only ever feeds it model output and
literals; Unicode spaces are out of scope of this development). -/
def jsIsSpace (c : Char) : Bool :=
  c == ' ' || c == '\t' || c == '\n' || c == '\r' || c == '\x0b' || c == '\x0c'

/-- Left part of JS `trim`: drop leading whitespace. -/
def jsTrimL (s : List Char) : List Char := s.dropWhile jsIsSpace

/-- Right part of JS `trim`: drop trailing whitespace. -/
def jsTrimR (s : List Char) : List Char := (s.reverse.dropWhile jsIsSpace).reverse

/-- JS `String.prototype.trim`. -/
def jsTrim (s : List Char) : List Char := jsTrimR (jsTrimL s)

/-- JS `String.prototype.split` with a single-character separator:
`"".split(c) = [""]`, separators at the ends produce empty segments. -/
def splitOnChar (sep : Char) : List Char → List (List Char)
  | [] => [[]]
  | c :: tl =>
    if c = sep then [] :: splitOnChar sep tl
    else
      match splitOnChar sep tl with
      | [] => [[c]]
      | h :: t => (c :: h) :: t

/-- JS `String.prototype.split('\n\n')`: cut at each leftmost, non-overlapping
occurrence of two consecutive newlines. -/
def splitBlankLine : List Char → List (List Char)
  | [] => [[]]
  | [c] => [[c]]
  | c1 :: c2 :: rest =>
    if c1 = '\n' && c2 = '\n' then [] :: splitBlankLine rest
    else
      match splitBlankLine (c2 :: rest) with
      | [] => [[c1]]
      | h :: t => (c1 :: h) :: t

/-- Boolean test used in proofs: no two consecutive newlines occur in the
string (so `splitBlankLine` returns the string as a single block). -/
def noDoubleNewline : List Char → Bool
  | [] => true
  | [_] => true
  | c1 :: c2 :: rest => !(c1 = '\n' && c2 = '\n') && noDoubleNewline (c2 :: rest)

/-- Boolean test used in hypotheses: the last character, if any, is not
whitespace (so `jsTrimR` is the identity). -/
def noTrailingWs (l : List Char) : Bool :=
  match l.getLast? with
  | none => true
  | some d => !jsIsSpace d

/-- Prefix test on character lists (Boolean, by character equality). -/
def isPre : List Char → List Char → Bool
  | [], _ => true
  | _ :: _, [] => false
  | c :: ct, d :: dt => c == d && isPre ct dt

/-- JS `String.prototype.replace` with a string pattern: replace the first
occurrence of `pat` by the empty string (the source only ever replaces with
`''`); if `pat` does not occur the string is returned unchanged. -/
def replaceFirst (pat : List Char) : List Char → List Char
  | [] => []
  | c :: tl =>
    if isPre pat (c :: tl) then (c :: tl).drop pat.length
    else c :: replaceFirst pat tl

/-!
## The lhs pattern of the vocabulary parse

`src/App.js` line 931: `original.match(/^(.*?)(?:\s*\((.*?)\))?$/)`.

On a newline-free string (every input here comes from a `split('\n')` line)
this regex always matches.  Backtracking semantics: group 1 is lazy, so the
engine takes the shortest prefix whose remainder matches
`(?:\s*\((.*?)\))?$`; the optional group is tried before the empty
alternative, and it matches exactly when, after the maximal run of
whitespace, the next character is `(` and the last character of the string is
`)` (the inner lazy group then necessarily captures everything in between).
`parenTail` decides that remainder match, `lhsMatchAux` walks the prefixes
left to right, so the first (shortest-prefix) success wins, exactly as the
regex engine does.
-/

/-- Does `rest` match `\s*\((.*?)\)$`?  If so, return the inner capture. -/
def parenTail (rest : List Char) : Option (List Char) :=
  match rest.dropWhile jsIsSpace with
  | [] => none
  | c :: tl =>
    if c = '(' then
      match tl.reverse with
      | [] => none
      | d :: innerRev => if d = ')' then some innerRev.reverse else none
    else none

/-- Walk the candidate split points of `^(.*?)(?:\s*\((.*?)\))?$` left to
right; `pre` holds the (reversed) group-1 candidate. -/
def lhsMatchAux : List Char → List Char → List Char × Option (List Char)
  | pre, [] => (pre.reverse, none)
  | pre, c :: tl =>
    match parenTail (c :: tl) with
    | some inner => (pre.reverse, some inner)
    | none => lhsMatchAux (c :: pre) tl

/-- The match of `/^(.*?)(?:\s*\((.*?)\))?$/` on a newline-free string:
`(baseForm, originalForm?)`. -/
def lhsMatch (s : List Char) : List Char × Option (List Char) := lhsMatchAux [] s

/-- The record shape shared by vocabulary and Q&A entries
(`{original, translated, baseForm}`; `selected` is only attached by the
Selection screen, a JS record without the key reads it as `undefined`,
modelled as `false`). `translated` is an `Option` because the vocabulary
parse stores `undefined` there for a line without a `;`. -/
structure Entry where
  original : List Char
  translated : Option (List Char)
  baseForm : Option (List Char)
  selected : Bool
  deriving DecidableEq

/-- One line of the vocabulary parse (`src/App.js` lines 928-941):
split on every `;`, trim the parts, destructure the first two, run the lhs
regex.  The regex always matches a newline-free line, so the fallback
`return { original, translated }` on line 940 is unreachable and not
modelled.  `originalForm || baseForm`: an absent or empty capture is falsy. -/
def lineToEntry (line : List Char) : Entry :=
  let parts := (splitOnChar ';' line).map jsTrim
  let lhs := parts.headD []
  let bm := lhsMatch lhs
  { original :=
      match bm.2 with
      | some o => if o = [] then bm.1 else o
      | none => bm.1
    translated := parts[1]?
    baseForm := some bm.1
    selected := false }

/-- The vocabulary parse (`src/App.js` lines 924-941):
`wordList.split('\n').map(w => w.trim()).filter(Boolean).map(line => ...)`. -/
def parseVocabulary (input : List Char) : List Entry :=
  (((splitOnChar '\n' input).map jsTrim).filter (· ≠ [])).map lineToEntry

/-- The `F: ` marker stripped from the first line of a Q&A block. -/
def fMark : List Char := "F: ".toList

/-- The `A: ` marker stripped from the second line of a Q&A block. -/
def aMark : List Char := "A: ".toList

/-- JS `Array.prototype.map` with a callback that can throw: the first
exception aborts the whole map. -/
def mapExcept (f : α → Except Unit β) : List α → Except Unit (List β)
  | [] => .ok []
  | x :: tl =>
    match f x with
    | .error e => .error e
    | .ok y =>
      match mapExcept f tl with
      | .error e => .error e
      | .ok ys => .ok (y :: ys)

/-- One block of the Q&A parse (`src/App.js` lines 972-978):
`const [question, answer] = pair.split('\n')`; when the block has a single
line, `answer` is `undefined` and `answer.replace('A: ', '')` throws a
TypeError, modelled as `.error ()`. -/
def blockToPair (block : List Char) : Except Unit Entry :=
  match splitOnChar '\n' block with
  | [] => .error ()
  | [_] => .error ()
  | q :: a :: _ =>
    .ok { original := jsTrim (replaceFirst aMark a)
          translated := some (jsTrim (replaceFirst fMark q))
          baseForm := none
          selected := false }

/-- The Q&A parse (`src/App.js` lines 969-978):
`response.split('\n\n').filter(Boolean).map(pair => ...)`; a TypeError in any
block aborts the whole parse. -/
def parseQA (input : List Char) : Except Unit (List Entry) :=
  mapExcept blockToPair ((splitBlankLine input).filter (· ≠ []))

/-!
## Deck Service Client: payload construction (`src/App.js` lines 109-117)
-/

/-- JS object key assignment `obj[k] = v` on a string-keyed object: an
existing key keeps its position and gets the new value, a new key is appended
(JS objects preserve string-key insertion order). -/
def insertKV (k v : List Char) : List (List Char × List Char) → List (List Char × List Char)
  | [] => [(k, v)]
  | p :: tl => if p.1 = k then (k, v) :: tl else p :: insertKV k v tl

/-- JS object key read `obj[k]`. -/
def jsLookup (k : List Char) : List (List Char × List Char) → Option (List Char)
  | [] => none
  | p :: tl => if p.1 = k then some p.2 else jsLookup k tl

/-- The `vocabulary.forEach(entry => { vocabObject[entry.translated.trim()] =
entry.original.trim(); })` loop; `entry.translated` can be `undefined` for a
malformed vocabulary line, in which case `.trim()` throws a TypeError. -/
def buildVocabAux (acc : List (List Char × List Char)) :
    List Entry → Except Unit (List (List Char × List Char))
  | [] => .ok acc
  | e :: tl =>
    match e.translated with
    | none => .error ()
    | some t => buildVocabAux (insertKV (jsTrim t) (jsTrim e.original) acc) tl

/-- The `vocabObject` built by `sendRequestToApi` from the entry list. -/
def buildVocabObject (entries : List Entry) : Except Unit (List (List Char × List Char)) :=
  buildVocabAux [] entries

/-- The default deck name used when `deckName` is falsy. -/
def defaultDeckName : List Char := "Default Deck".toList

/-- The outbound payload shape `{deck_name, vocabulary}`. -/
structure Payload where
  deck_name : List Char
  vocabulary : List (List Char × List Char)
  deriving DecidableEq

/-- Payload construction of `sendRequestToApi` (`src/App.js` lines 109-117):
`{ deck_name: deckName || 'Default Deck', vocabulary: vocabObject }`. -/
def buildPayload (entries : List Entry) (deckName : List Char) : Except Unit Payload :=
  match buildVocabObject entries with
  | .error e => .error e
  | .ok m => .ok ⟨if deckName = [] then defaultDeckName else deckName, m⟩

/-!
## Deck Service Client: failure classification (`src/App.js` lines 161-211)

The whole classification lives in the `catch (error)` block of
`sendRequestToApi`.  The identifier `t` applied there is not bound anywhere
in the enclosing scopes: in `src/App.js` `t` is only ever declared as a local
`const t = (text) => getTranslation(...)` inside the React components, while
`sendRequestToApi` is a module-level function.  Evaluating `t(...)` therefore
raises `ReferenceError: t is not defined`; `tCall` models exactly that.
-/

/-- A JS exception relevant to the classification block. -/
inductive JsExn
  | syntaxError
  | typeError
  | refErrorT
  deriving DecidableEq

/-- Application of the identifier `t`, which is unbound in the scope of
`sendRequestToApi` (see the section comment): it always raises
`ReferenceError`. -/
def tCall (_key : List Char) : Except JsExn (List Char) := .error .refErrorT

/-- JS truthiness of a possibly-absent string: `undefined` and `''` are
falsy. -/
def jsTruthy : Option (List Char) → Option (List Char)
  | none => none
  | some s => if s = [] then none else some s

/-- Result of `JSON.parse` on the decoded buffer text: failure (it throws),
the JSON value `null` (property access on it throws a TypeError), or any
other value with its `error`/`message` fields (absent or non-string fields
read as `undefined`). -/
inductive ParseOutcome
  | fail
  | nullVal
  | obj (error : Option (List Char)) (message : Option (List Char))
  deriving DecidableEq

/-- The body of `error.response` as the classification sees it: an
`ArrayBuffer` (with its UTF-8 decoding and the outcome of `JSON.parse` on
it), or a non-buffer value whose `error`/`message` fields are read with
optional chaining (`none` models a nullish `data`). -/
inductive RespData
  | buffer (text : List Char) (parsed : ParseOutcome)
  | plain (fields : Option (Option (List Char) × Option (List Char)))
  deriving DecidableEq

/-- The `error.response` object: HTTP status and body. -/
structure Resp where
  status : Nat
  data : RespData
  deriving DecidableEq

/-- The axios error object reaching the `catch` block. -/
structure AxiosError where
  response : Option Resp
  code : Option (List Char)
  hasRequest : Bool
  message : List Char
  deriving DecidableEq

def serverErrorKey : List Char := "Server error".toList
def badRequestKey : List Char := "Bad Request".toList
def listTooLargeKey : List Char := "List too large".toList
def invalidContentTypeKey : List Char := "Invalid content type".toList
def tooManyRequestsKey : List Char := "Too many requests".toList
def requestTimeoutKey : List Char := "Request timeout".toList
def networkErrorKey : List Char := "Network error".toList
def noServerResponseKey : List Char := "No server response".toList
def econnAbortedKey : List Char := "ECONNABORTED".toList
def errNetworkKey : List Char := "ERR_NETWORK".toList

/-- Lines 170-175, inner `try`: `JSON.parse(text)` then
`errorData.error || errorData.message || t('Server error')`.  Every throw in
here (SyntaxError from `JSON.parse`, TypeError on `null`, ReferenceError from
the unbound `t`) is caught by the inner `catch`. -/
def bufferTryBody (parsed : ParseOutcome) : Except JsExn (List Char) :=
  match parsed with
  | .fail => .error .syntaxError
  | .nullVal => .error .typeError
  | .obj e m =>
    match jsTruthy e with
    | some s => .ok s
    | none =>
      match jsTruthy m with
      | some s => .ok s
      | none => tCall serverErrorKey

/-- Lines 167-175: the `ArrayBuffer` branch; the inner `catch` turns any
throw into `errorMessage = text`. -/
def classifyBuffer (text : List Char) (parsed : ParseOutcome) : List Char :=
  match bufferTryBody parsed with
  | .ok s => s
  | .error _ => text

/-- Line 177, the non-buffer branch:
`error.response.data?.error || error.response.data?.message || t('Server error')`
with no inner `try` around it. -/
def plainBody (fields : Option (Option (List Char) × Option (List Char))) :
    Except JsExn (List Char) :=
  match jsTruthy (fields.bind (·.1)) with
  | some s => .ok s
  | none =>
    match jsTruthy (fields.bind (·.2)) with
    | some s => .ok s
    | none => tCall serverErrorKey

/-- Lines 180-198, the `switch (error.response.status)` table.  Every arm,
including the default (whose template literal evaluates `t('Server error')`
before interpolating the status), applies the unbound `t`. -/
def statusFallback (status : Nat) : Except JsExn (List Char) :=
  match status with
  | 400 => tCall badRequestKey
  | 413 => tCall listTooLargeKey
  | 415 => tCall invalidContentTypeKey
  | 429 => tCall tooManyRequestsKey
  | 500 => tCall serverErrorKey
  | _ => tCall serverErrorKey

/-- How `sendRequestToApi` ultimately rejects: with `new Error(errorMessage)`
(the classified message), or with an uncaught `ReferenceError: t is not
defined` escaping the `catch` block. -/
inductive FailureOutcome
  | thrown (msg : List Char)
  | refErrorEscaped
  deriving DecidableEq

/-- The full `catch (error)` classification of `sendRequestToApi`
(`src/App.js` lines 161-211).  The outer `try`/`catch` around the body-decode
only ever sees a throw from the non-buffer branch (the buffer branch catches
everything internally), and the `switch` it runs then rethrows via the
unbound `t`. -/
def classifyApiFailure (err : AxiosError) : FailureOutcome :=
  match err.response with
  | some r =>
    match r.data with
    | .buffer text parsed => .thrown (classifyBuffer text parsed)
    | .plain fields =>
      match plainBody fields with
      | .ok s => .thrown s
      | .error _ =>
        match statusFallback r.status with
        | .ok s => .thrown s
        | .error _ => .refErrorEscaped
  | none =>
    if err.code = some econnAbortedKey then
      match tCall requestTimeoutKey with
      | .ok s => .thrown s
      | .error _ => .refErrorEscaped
    else if err.code = some errNetworkKey then
      match tCall networkErrorKey with
      | .ok s => .thrown s
      | .error _ => .refErrorEscaped
    else if err.hasRequest then
      match tCall noServerResponseKey with
      | .ok s => .thrown s
      | .error _ => .refErrorEscaped
    else .thrown err.message

/-!
## Workflow state machine (`RootApp`, `src/App.js` lines 809-1059)

`RootApp` owns `step`, `selectedLanguage`, `processing`, `downloadUrl`,
`extractedWords`, `deckName`, `inputText`.  Each screen only wires the
handlers listed in the `switch (step)` render (lines 1003-1058), so an event
can only fire in the step whose screen exposes it; firing anything else
leaves the state untouched.  Asynchronous collaborator responses (the model
text, the suggested deck name, the deck-service result) are carried on the
events as oracles.
-/

/-- A language from the static catalog (`./translations`). -/
structure Language where
  code : List Char
  name : List Char
  flag : List Char
  deriving DecidableEq

/-- The `step` values of `RootApp`. -/
inductive Step
  | language
  | input
  | text
  | deckType
  | selection
  | result
  deriving DecidableEq

/-- The deck-type choice on the `deckType` screen. -/
inductive DeckType
  | vocabulary
  | qa
  deriving DecidableEq

/-- The state owned by `RootApp`. -/
structure AppState where
  step : Step
  selectedLanguage : Option Language
  processing : List Char
  downloadUrl : Option (List Char)
  extractedWords : List Entry
  deckName : List Char
  inputText : List Char
  deriving DecidableEq

/-- The initial `useState` values of `RootApp` (lines 810-816). -/
def initialState : AppState :=
  { step := .language
    selectedLanguage := none
    processing := []
    downloadUrl := some []
    extractedWords := []
    deckName := []
    inputText := [] }

/-- `resetApp` (`src/App.js` lines 991-997): it resets `step`,
`selectedLanguage`, `processing`, `downloadUrl` and `extractedWords`, and
does NOT touch `deckName` or `inputText`. -/
def resetApp (s : AppState) : AppState :=
  { s with
    step := .language
    selectedLanguage := none
    processing := []
    downloadUrl := some []
    extractedWords := [] }

/-- User/collaborator events the rendered screens can fire. -/
inductive Event
  | selectLanguage (lang : Language)
  | chooseTextInput
  | submitText (txt : List Char)
  | chooseDeckType (ty : DeckType) (suggestedName : List Char) (llmResponse : List Char)
  | submitSelection (words : List Entry) (apiFail : Option (List Char))
  | reset
  deriving DecidableEq

/-- Observable side effects of a transition. -/
inductive Effect
  | alertError (msg : List Char)
  | alertSuccess
  | apiRequest (words : List Entry) (deckName : List Char)
  deriving DecidableEq

/-- The alert text of the empty-selection guard (line 676). -/
def pleaseSelectMsg : List Char := "Please select at least one word.".toList

/-- The alert text of the card-generation failure handler (line 985). -/
def failedGenerateMsg : List Char := "Failed to generate cards. Please try again.".toList

/-- The transition function of `RootApp`: the handler wired for the event on
the screen of the current step, or the identity when the current screen does
not expose the event. `chooseDeckType` embeds `handleDeckTypeSelection`
(lines 893-989): the suggested deck name is stored trimmed before parsing,
and a Q&A parse TypeError is caught by the surrounding `catch`, which alerts
and leaves `step` unchanged.  `submitSelection` embeds
`SelectionScreen.handleSubmit` (lines 670-700) with the editor's current word
list and the deck-service outcome (`none` = success) as oracles: an empty
selected subset alerts and returns before any request; a successful request
alerts success and runs `onSubmit(null)` (lines 1038-1041), setting
`downloadUrl` to `null` and `step` to `result`. -/
def handleEvent (s : AppState) (e : Event) : AppState × List Effect :=
  match s.step, e with
  | .language, .selectLanguage lang =>
    ({ s with selectedLanguage := some lang, step := .input }, [])
  | .input, .chooseTextInput => ({ s with step := .text }, [])
  | .text, .submitText txt =>
    if txt = [] then (s, [])
    else ({ s with inputText := txt, step := .deckType, processing := [] }, [])
  | .deckType, .chooseDeckType ty suggestedName llmResponse =>
    match ty with
    | .vocabulary =>
      ({ s with
          deckName := jsTrim suggestedName
          extractedWords := parseVocabulary llmResponse
          step := .selection
          processing := [] }, [])
    | .qa =>
      match parseQA llmResponse with
      | .ok pairs =>
        ({ s with
            deckName := jsTrim suggestedName
            extractedWords := pairs
            step := .selection
            processing := [] }, [])
      | .error _ =>
        ({ s with deckName := jsTrim suggestedName, processing := [] },
         [.alertError failedGenerateMsg])
  | .selection, .submitSelection words apiFail =>
    let finalWords := words.filter (·.selected)
    if finalWords = [] then (s, [.alertError pleaseSelectMsg])
    else
      match apiFail with
      | none =>
        ({ s with downloadUrl := none, step := .result, processing := [] },
         [.apiRequest finalWords s.deckName, .alertSuccess])
      | some msg =>
        ({ s with processing := [] },
         [.apiRequest finalWords s.deckName, .alertError msg])
  | .result, .reset => (resetApp s, [])
  | _, _ => (s, [])

/-- The Selection screen seeds its working list with `selected = true` for
every entry (`words.map((w) => ({ ...w, selected: true }))`, line 652). -/
def seedSelection (words : List Entry) : List Entry :=
  words.map fun w => { w with selected := true }

/-- `toggleWord` (lines 662-668): flip `selected` at one index. -/
def toggleWord (i : Nat) (words : List Entry) : List Entry :=
  words.mapIdx fun j w => if j = i then { w with selected := !w.selected } else w

/-!
# Helper lemmas
-/

theorem splitOnChar_ne_nil (sep : Char) : ∀ l : List Char, splitOnChar sep l ≠ []
  | [], h => by simp [splitOnChar] at h
  | c :: tl, h => by
    by_cases hc : c = sep
    · simp [splitOnChar, hc] at h
    · rw [splitOnChar] at h
      rw [if_neg hc] at h
      revert h
      cases splitOnChar sep tl <;> simp

theorem splitOnChar_no_sep (sep : Char) : ∀ l : List Char, sep ∉ l → splitOnChar sep l = [l]
  | [], _ => rfl
  | c :: tl, h => by
    have hc : ¬ c = sep := fun hh => h (hh ▸ List.mem_cons_self c tl)
    have ht : sep ∉ tl := fun hm => h (List.mem_cons_of_mem _ hm)
    rw [splitOnChar, if_neg hc, splitOnChar_no_sep sep tl ht]

theorem splitOnChar_append (sep : Char) (b : List Char) :
    ∀ a : List Char, sep ∉ a → splitOnChar sep (a ++ sep :: b) = a :: splitOnChar sep b
  | [], _ => by rw [List.nil_append, splitOnChar, if_pos rfl]
  | c :: a', h => by
    have hc : ¬ c = sep := fun hh => h (hh ▸ List.mem_cons_self c a')
    have ha : sep ∉ a' := fun hm => h (List.mem_cons_of_mem _ hm)
    rw [List.cons_append, splitOnChar, if_neg hc,
      splitOnChar_append sep b a' ha]

theorem dropWhile_append_stop (p : Char → Bool) (sep : Char) (hsep : p sep = false)
    (w : List Char) :
    ∀ u : List Char, List.dropWhile p (u ++ sep :: w) = List.dropWhile p u ++ sep :: w
  | [] => by
    rw [List.nil_append, List.dropWhile_nil, List.nil_append,
      List.dropWhile_cons_of_neg (by simp [hsep])]
  | c :: u' => by
    by_cases hc : p c
    · rw [List.cons_append, List.dropWhile_cons_of_pos hc, List.dropWhile_cons_of_pos hc,
        dropWhile_append_stop p sep hsep w u']
    · rw [List.cons_append, List.dropWhile_cons_of_neg hc, List.dropWhile_cons_of_neg hc,
        List.cons_append]

theorem dropWhile_append_left (p : Char → Bool) (v : List Char) :
    ∀ u : List Char, List.dropWhile p u ≠ [] →
      List.dropWhile p (u ++ v) = List.dropWhile p u ++ v
  | [], h => absurd rfl h
  | c :: u', h => by
    by_cases hc : p c
    · rw [List.dropWhile_cons_of_pos hc] at h
      rw [List.cons_append, List.dropWhile_cons_of_pos hc, List.dropWhile_cons_of_pos hc,
        dropWhile_append_left p v u' h]
    · rw [List.cons_append, List.dropWhile_cons_of_neg hc, List.dropWhile_cons_of_neg hc,
        List.cons_append]

theorem dropWhile_isSuffix (p : Char → Bool) : ∀ l : List Char, List.dropWhile p l <:+ l
  | [] => List.suffix_refl []
  | c :: tl => by
    by_cases hc : p c
    · rw [List.dropWhile_cons_of_pos hc]
      exact (dropWhile_isSuffix p tl).trans (List.suffix_cons c tl)
    · rw [List.dropWhile_cons_of_neg hc]

theorem getLast?_of_suffix {s l : List Char} (h : s <:+ l) (hs : s ≠ []) :
    s.getLast? = l.getLast? := by
  obtain ⟨t, rfl⟩ := h
  exact (List.getLast?_append_of_ne_nil t hs).symm

theorem dropWhile_ne_nil_of_last (l : List Char) (hne : l ≠ [])
    (h : noTrailingWs l = true) : l.dropWhile jsIsSpace ≠ [] := by
  intro hnil
  have hall := List.dropWhile_eq_nil_iff.mp hnil
  have hmem : l.getLast hne ∈ l := List.getLast_mem hne
  have hlast : l.getLast? = some (l.getLast hne) := List.getLast?_eq_getLast l hne
  unfold noTrailingWs at h
  rw [hlast] at h
  simp only [Bool.not_eq_true'] at h
  exact absurd (hall _ hmem) (by simp [h])

theorem jsTrimL_cons_of_neg (c : Char) (l : List Char) (h : jsIsSpace c = false) :
    jsTrimL (c :: l) = c :: l := by
  unfold jsTrimL
  exact List.dropWhile_cons_of_neg (by simp [h])

theorem jsTrimL_append_sep (sep : Char) (hsep : jsIsSpace sep = false)
    (a rest : List Char) :
    jsTrimL (a ++ sep :: rest) = jsTrimL a ++ sep :: rest :=
  dropWhile_append_stop jsIsSpace sep hsep rest a

theorem jsTrimR_append_sep (sep : Char) (hsep : jsIsSpace sep = false)
    (X c : List Char) :
    jsTrimR (X ++ sep :: c) = X ++ sep :: jsTrimR c := by
  unfold jsTrimR
  rw [List.reverse_append, List.reverse_cons, List.append_assoc, List.singleton_append,
    dropWhile_append_stop jsIsSpace sep hsep, List.reverse_append, List.reverse_cons,
    List.reverse_reverse, List.append_assoc, List.singleton_append]

theorem jsTrimR_eq_self (l : List Char) (h : noTrailingWs l = true) : jsTrimR l = l := by
  unfold jsTrimR
  cases hr : l.reverse with
  | nil =>
    have : l = [] := List.reverse_eq_nil_iff.mp hr
    simp [this]
  | cons d t =>
    have hd : l.getLast? = some d := by
      rw [← List.head?_reverse, hr]
      rfl
    unfold noTrailingWs at h
    rw [hd] at h
    simp only [Bool.not_eq_true'] at h
    rw [List.dropWhile_cons_of_neg (by simp [h]), ← hr, List.reverse_reverse]

theorem jsTrim_eq_self (c : Char) (l : List Char) (h1 : jsIsSpace c = false)
    (h2 : noTrailingWs (c :: l) = true) : jsTrim (c :: l) = c :: l := by
  unfold jsTrim
  rw [jsTrimL_cons_of_neg c l h1, jsTrimR_eq_self _ h2]

theorem parenTail_mk (orig : List Char) :
    parenTail (' ' :: '(' :: (orig ++ [')'])) = some orig := by
  unfold parenTail
  rw [List.dropWhile_cons_of_pos (by decide), List.dropWhile_cons_of_neg (by decide)]
  simp

theorem parenTail_none_no_paren (s rest : List Char) (hne : s ≠ [])
    (hlast : noTrailingWs s = true) (hnp : '(' ∉ s) :
    parenTail (s ++ rest) = none := by
  have hd : s.dropWhile jsIsSpace ≠ [] := dropWhile_ne_nil_of_last s hne hlast
  unfold parenTail
  rw [dropWhile_append_left jsIsSpace rest s hd]
  cases hds : s.dropWhile jsIsSpace with
  | nil => exact absurd hds hd
  | cons c tl =>
    have hc : c ∈ s := (List.dropWhile_sublist jsIsSpace).mem
      (hds ▸ List.mem_cons_self c tl)
    have hcp : ¬ c = '(' := fun hh => hnp (hh ▸ hc)
    simp [List.cons_append, hcp]

theorem parenTail_none_last (s : List Char) (hlast : s.getLast? ≠ some ')') :
    parenTail s = none := by
  unfold parenTail
  cases hds : s.dropWhile jsIsSpace with
  | nil => rfl
  | cons c tl =>
    by_cases hc : c = '('
    · cases htl : tl.reverse with
      | nil => simp [hc, htl]
      | cons d ir =>
        have htlne : tl ≠ [] := by
          intro h
          rw [h] at htl
          simp at htl
        have hdlast : tl.getLast? = some d := by
          rw [← List.head?_reverse, htl]
          rfl
        have hsuffix : (c :: tl) <:+ s := hds ▸ dropWhile_isSuffix jsIsSpace s
        have hgl : s.getLast? = some d := by
          rw [← getLast?_of_suffix hsuffix (by simp),
            show c :: tl = [c] ++ tl from rfl,
            List.getLast?_append_of_ne_nil [c] htlne, hdlast]
        have hdne : ¬ d = ')' := fun hh => hlast (hh ▸ hgl)
        simp [hc, htl, hdne]
    · simp [hc]

theorem lhsMatchAux_skip :
    ∀ (b : List Char) (pre rest : List Char),
      (∀ s : List Char, s ≠ [] → s <:+ b → parenTail (s ++ rest) = none) →
      lhsMatchAux pre (b ++ rest) = lhsMatchAux (b.reverse ++ pre) rest
  | [], _, _, _ => by simp
  | c :: b', pre, rest, h => by
    have hpt : parenTail (c :: (b' ++ rest)) = none := by
      have := h (c :: b') (by simp) (List.suffix_refl _)
      rwa [List.cons_append] at this
    have h' : ∀ s : List Char, s ≠ [] → s <:+ b' → parenTail (s ++ rest) = none :=
      fun s hs hsb => h s hs (hsb.trans (List.suffix_cons c b'))
    rw [List.cons_append]
    simp only [lhsMatchAux, hpt]
    rw [lhsMatchAux_skip b' (c :: pre) rest h']
    simp [List.append_assoc]

theorem lhsMatch_paren (c0 : Char) (b1 orig : List Char)
    (hlast : noTrailingWs (c0 :: b1) = true)
    (hnp : '(' ∉ (c0 :: b1)) :
    lhsMatch ((c0 :: b1) ++ ' ' :: '(' :: (orig ++ [')'])) = (c0 :: b1, some orig) := by
  unfold lhsMatch
  rw [lhsMatchAux_skip (c0 :: b1) [] _ ?side]
  case side =>
    intro s hs hsb
    apply parenTail_none_no_paren s _ hs
    · unfold noTrailingWs
      unfold noTrailingWs at hlast
      rw [getLast?_of_suffix hsb hs]
      exact hlast
    · exact fun hmem => hnp (hsb.subset hmem)
  simp only [lhsMatchAux, parenTail_mk]
  simp

theorem lhsMatch_plain (word : List Char) (hlast : word.getLast? ≠ some ')') :
    lhsMatch word = (word, none) := by
  unfold lhsMatch
  have hside : ∀ s : List Char, s ≠ [] → s <:+ word → parenTail (s ++ []) = none := by
    intro s hs hsb
    rw [List.append_nil]
    exact parenTail_none_last s (by rw [getLast?_of_suffix hsb hs]; exact hlast)
  have h := lhsMatchAux_skip word [] [] hside
  rw [List.append_nil] at h
  rw [h]
  simp [lhsMatchAux]

theorem not_mem_append {x : Char} {a b : List Char} (ha : x ∉ a) (hb : x ∉ b) :
    x ∉ a ++ b := by
  intro h
  rcases List.mem_append.mp h with h | h
  exacts [ha h, hb h]

theorem not_mem_cons {x c : Char} {l : List Char} (hc : x ≠ c) (hl : x ∉ l) :
    x ∉ c :: l := by
  intro h
  rcases List.mem_cons.mp h with h | h
  exacts [hc h, hl h]

theorem not_mem_jsTrimL {x : Char} {l : List Char} (h : x ∉ l) : x ∉ jsTrimL l :=
  fun hm => h ((List.dropWhile_sublist jsIsSpace).mem hm)

theorem lineToEntry_translated (line : List Char) :
    (lineToEntry line).translated = ((splitOnChar ';' line).map jsTrim)[1]? := rfl

theorem parseVocabulary_single (l : List Char) (h : '\n' ∉ l) :
    parseVocabulary l = if jsTrim l = [] then [] else [lineToEntry (jsTrim l)] := by
  unfold parseVocabulary
  rw [splitOnChar_no_sep '\n' l h]
  by_cases hz : jsTrim l = [] <;> simp [hz, List.filter]

/-- A vocabulary line `base (orig);trans` through `parseVocabulary`. -/
theorem parseVocabulary_paren_line (c0 : Char) (b1 orig trans : List Char)
    (h0 : jsIsSpace c0 = false)
    (hlast : noTrailingWs (c0 :: b1) = true)
    (hnp : '(' ∉ (c0 :: b1)) (hsemi : ';' ∉ (c0 :: b1)) (hnl : '\n' ∉ (c0 :: b1))
    (horig : orig ≠ []) (hsemi2 : ';' ∉ orig) (hnl2 : '\n' ∉ orig)
    (hsemi3 : ';' ∉ trans) (hnl3 : '\n' ∉ trans) (htr : noTrailingWs trans = true) :
    parseVocabulary (((c0 :: b1) ++ ' ' :: '(' :: (orig ++ [')'])) ++ ';' :: trans) =
      [{ original := orig, translated := some (jsTrim trans),
         baseForm := some (c0 :: b1), selected := false }] := by
  have hnlL : '\n' ∉ ((c0 :: b1) ++ ' ' :: '(' :: (orig ++ [')'])) :=
    not_mem_append hnl (not_mem_cons (by decide) (not_mem_cons (by decide)
      (not_mem_append hnl2 (not_mem_cons (by decide) (List.not_mem_nil _)))))
  have hsemiL : ';' ∉ ((c0 :: b1) ++ ' ' :: '(' :: (orig ++ [')'])) :=
    not_mem_append hsemi (not_mem_cons (by decide) (not_mem_cons (by decide)
      (not_mem_append hsemi2 (not_mem_cons (by decide) (List.not_mem_nil _)))))
  have hnlAll : '\n' ∉ (((c0 :: b1) ++ ' ' :: '(' :: (orig ++ [')'])) ++ ';' :: trans) :=
    not_mem_append hnlL (not_mem_cons (by decide) hnl3)
  have hcons : ((c0 :: b1) ++ ' ' :: '(' :: (orig ++ [')'])) ++ ';' :: trans =
      c0 :: ((b1 ++ ' ' :: '(' :: (orig ++ [')'])) ++ ';' :: trans) := by
    simp
  have htrimL : jsTrimL (((c0 :: b1) ++ ' ' :: '(' :: (orig ++ [')'])) ++ ';' :: trans) =
      ((c0 :: b1) ++ ' ' :: '(' :: (orig ++ [')'])) ++ ';' :: trans := by
    rw [hcons, jsTrimL_cons_of_neg _ _ h0]
  have htrim : jsTrim (((c0 :: b1) ++ ' ' :: '(' :: (orig ++ [')'])) ++ ';' :: trans) =
      ((c0 :: b1) ++ ' ' :: '(' :: (orig ++ [')'])) ++ ';' :: trans := by
    unfold jsTrim
    rw [htrimL, jsTrimR_append_sep ';' (by decide), jsTrimR_eq_self trans htr]
  have hLlast : noTrailingWs ((c0 :: b1) ++ ' ' :: '(' :: (orig ++ [')'])) = true := by
    unfold noTrailingWs
    rw [show (c0 :: b1) ++ ' ' :: '(' :: (orig ++ [')']) =
        ((c0 :: b1) ++ ' ' :: '(' :: orig) ++ [')'] from by simp,
      List.getLast?_append_of_ne_nil _ (by simp)]
    decide
  have hLcons : (c0 :: b1) ++ ' ' :: '(' :: (orig ++ [')']) =
      c0 :: (b1 ++ ' ' :: '(' :: (orig ++ [')'])) := by simp
  have htrimLhs : jsTrim ((c0 :: b1) ++ ' ' :: '(' :: (orig ++ [')'])) =
      (c0 :: b1) ++ ' ' :: '(' :: (orig ++ [')']) := by
    rw [hLcons]
    exact (jsTrim_eq_self c0 _ h0 (by rw [← hLcons]; exact hLlast)).trans rfl
  rw [parseVocabulary_single _ hnlAll, htrim, if_neg (by rw [hcons]; simp)]
  unfold lineToEntry
  rw [splitOnChar_append ';' trans _ hsemiL, splitOnChar_no_sep ';' trans hsemi3]
  simp only [List.map_cons, List.map_nil, htrimLhs, List.headD_cons]
  rw [lhsMatch_paren c0 b1 orig hlast hnp]
  simp [horig]

/-- A vocabulary line `word;trans` (no parenthesized form) through
`parseVocabulary`. -/
theorem parseVocabulary_plain_line (c0 : Char) (w1 trans : List Char)
    (h0 : jsIsSpace c0 = false)
    (hlast : noTrailingWs (c0 :: w1) = true)
    (hpar : (c0 :: w1).getLast? ≠ some ')')
    (hsemi : ';' ∉ (c0 :: w1)) (hnl : '\n' ∉ (c0 :: w1))
    (hsemi3 : ';' ∉ trans) (hnl3 : '\n' ∉ trans) (htr : noTrailingWs trans = true) :
    parseVocabulary ((c0 :: w1) ++ ';' :: trans) =
      [{ original := c0 :: w1, translated := some (jsTrim trans),
         baseForm := some (c0 :: w1), selected := false }] := by
  have hnlAll : '\n' ∉ ((c0 :: w1) ++ ';' :: trans) :=
    not_mem_append hnl (not_mem_cons (by decide) hnl3)
  have hcons : (c0 :: w1) ++ ';' :: trans = c0 :: (w1 ++ ';' :: trans) := by simp
  have htrimL : jsTrimL ((c0 :: w1) ++ ';' :: trans) = (c0 :: w1) ++ ';' :: trans := by
    rw [hcons, jsTrimL_cons_of_neg _ _ h0]
  have htrim : jsTrim ((c0 :: w1) ++ ';' :: trans) = (c0 :: w1) ++ ';' :: trans := by
    unfold jsTrim
    rw [htrimL, jsTrimR_append_sep ';' (by decide), jsTrimR_eq_self trans htr]
  rw [parseVocabulary_single _ hnlAll, htrim, if_neg (by rw [hcons]; simp)]
  unfold lineToEntry
  rw [splitOnChar_append ';' trans _ hsemi, splitOnChar_no_sep ';' trans hsemi3]
  simp only [List.map_cons, List.map_nil, List.headD_cons,
    jsTrim_eq_self c0 w1 h0 hlast]
  rw [lhsMatch_plain _ hpar]
  simp

/-- A vocabulary line with two `;` separators: the `translated` field is the
(trimmed) second segment only. -/
theorem vocabLine_second_segment (a b c : List Char)
    (hsa : ';' ∉ a) (hsb : ';' ∉ b)
    (hna : '\n' ∉ a) (hnb : '\n' ∉ b) (hnc : '\n' ∉ c) :
    (parseVocabulary (a ++ ';' :: (b ++ ';' :: c))).map (fun e => e.translated) =
      [some (jsTrim b)] := by
  have hnlAll : '\n' ∉ (a ++ ';' :: (b ++ ';' :: c)) :=
    not_mem_append hna (not_mem_cons (by decide)
      (not_mem_append hnb (not_mem_cons (by decide) hnc)))
  have htrim : jsTrim (a ++ ';' :: (b ++ ';' :: c)) =
      jsTrimL a ++ ';' :: (b ++ ';' :: jsTrimR c) := by
    unfold jsTrim
    rw [jsTrimL_append_sep ';' (by decide),
      show jsTrimL a ++ ';' :: (b ++ ';' :: c) =
        (jsTrimL a ++ ';' :: b) ++ ';' :: c from by simp,
      jsTrimR_append_sep ';' (by decide)]
    simp
  rw [parseVocabulary_single _ hnlAll, htrim, if_neg (by simp)]
  simp only [List.map_cons, List.map_nil, lineToEntry_translated]
  rw [splitOnChar_append ';' _ _ (not_mem_jsTrimL hsa),
    splitOnChar_append ';' _ _ hsb]
  simp

theorem noDoubleNewline_cons (c : Char) (hc : ¬ c = '\n') :
    ∀ z : List Char, noDoubleNewline (c :: z) = noDoubleNewline z
  | [] => rfl
  | d :: z' => by
    rw [noDoubleNewline]
    simp [hc]

theorem noDoubleNewline_append :
    ∀ x : List Char, '\n' ∉ x → ∀ z, noDoubleNewline (x ++ z) = noDoubleNewline z
  | [], _, _ => rfl
  | c :: x', hx, z => by
    have hc : ¬ c = '\n' := fun h => hx (h ▸ List.mem_cons_self c x')
    have hx' : '\n' ∉ x' := fun h => hx (List.mem_cons_of_mem _ h)
    rw [List.cons_append, noDoubleNewline_cons c hc, noDoubleNewline_append x' hx' z]

theorem noDoubleNewline_of_no_newline (l : List Char) (h : '\n' ∉ l) :
    noDoubleNewline l = true := by
  have h2 := noDoubleNewline_append l h []
  rw [List.append_nil] at h2
  exact h2.trans rfl

theorem splitBlankLine_single :
    ∀ l : List Char, noDoubleNewline l = true → splitBlankLine l = [l]
  | [], _ => rfl
  | [_], _ => rfl
  | c1 :: c2 :: rest, h => by
    rw [noDoubleNewline] at h
    simp only [Bool.and_eq_true, Bool.not_eq_true'] at h
    rw [splitBlankLine, if_neg (by simp [h.1]),
      splitBlankLine_single (c2 :: rest) h.2]

theorem isPre_append : ∀ pat rest : List Char, isPre pat (pat ++ rest) = true
  | [], _ => rfl
  | p :: pt, rest => by
    rw [List.cons_append, isPre]
    simp [isPre_append pt rest]

theorem replaceFirst_of_pre (p : Char) (pt rest : List Char) :
    replaceFirst (p :: pt) ((p :: pt) ++ rest) = rest := by
  rw [List.cons_append, replaceFirst,
    if_pos (by rw [← List.cons_append]; exact isPre_append (p :: pt) rest),
    ← List.cons_append, List.drop_left]

theorem mapExcept_error_of_mem (f : α → Except Unit β) :
    ∀ (l : List α) (x : α), x ∈ l → f x = .error () → mapExcept f l = .error ()
  | [], x, hx, _ => absurd hx (List.not_mem_nil x)
  | a :: tl, x, hx, hfx => by
    rw [mapExcept]
    rcases List.mem_cons.mp hx with h | h
    · rw [h] at hfx
      rw [hfx]
    · cases hfa : f a with
      | error e => cases e; rfl
      | ok y => rw [mapExcept_error_of_mem f tl x h hfx]

theorem blockToPair_no_newline (b : List Char) (h : '\n' ∉ b) :
    blockToPair b = .error () := by
  unfold blockToPair
  rw [splitOnChar_no_sep '\n' b h]

theorem blockToPair_two_lines (l1 tail : List Char) (h : '\n' ∉ l1) :
    blockToPair (l1 ++ '\n' :: tail) =
      .ok { original := jsTrim (replaceFirst aMark ((splitOnChar '\n' tail).headD []))
            translated := some (jsTrim (replaceFirst fMark l1))
            baseForm := none
            selected := false } := by
  unfold blockToPair
  rw [splitOnChar_append '\n' tail l1 h]
  cases hs : splitOnChar '\n' tail with
  | nil => exact absurd hs (splitOnChar_ne_nil '\n' tail)
  | cons h2 t2 => simp

theorem parseQA_error_of_bad_block (input b : List Char)
    (hmem : b ∈ splitBlankLine input) (hne : b ≠ []) (hnl : '\n' ∉ b) :
    parseQA input = .error () := by
  unfold parseQA
  apply mapExcept_error_of_mem blockToPair _ b
  · exact List.mem_filter.mpr ⟨hmem, by simp [hne]⟩
  · exact blockToPair_no_newline b hnl

theorem parseQA_single_block (input : List Char) (hnd : noDoubleNewline input = true)
    (hne : input ≠ []) :
    parseQA input = mapExcept blockToPair [input] := by
  unfold parseQA
  rw [splitBlankLine_single input hnd]
  simp [List.filter, hne]

theorem buildVocabAux_ignores_selected (b : Bool) :
    ∀ (l : List Entry) (acc : List (List Char × List Char)),
      buildVocabAux acc (l.map fun e => { e with selected := b }) = buildVocabAux acc l
  | [], _ => rfl
  | e :: tl, acc => by
    obtain ⟨o, tr, bf, sel⟩ := e
    rw [List.map_cons, buildVocabAux, buildVocabAux]
    cases tr with
    | none => rfl
    | some t => exact buildVocabAux_ignores_selected b tl _

theorem buildVocabAux_append :
    ∀ (l1 : List Entry) (acc m : List (List Char × List Char)),
      buildVocabAux acc l1 = .ok m →
      ∀ l2, buildVocabAux acc (l1 ++ l2) = buildVocabAux m l2
  | [], acc, m, h, l2 => by
    rw [List.nil_append]
    rw [buildVocabAux] at h
    cases h
    rfl
  | e :: tl, acc, m, h, l2 => by
    obtain ⟨o, tr, bf, sel⟩ := e
    rw [List.cons_append, buildVocabAux]
    rw [buildVocabAux] at h
    cases tr with
    | none => exact absurd h (by simp)
    | some t => exact buildVocabAux_append tl _ m h l2

theorem jsLookup_insertKV (k v : List Char) :
    ∀ m : List (List Char × List Char), jsLookup k (insertKV k v m) = some v
  | [] => by
    rw [insertKV, jsLookup, if_pos rfl]
  | p :: tl => by
    by_cases hp : p.1 = k
    · rw [insertKV, if_pos hp, jsLookup, if_pos rfl]
    · rw [insertKV, if_neg hp, jsLookup, if_neg hp, jsLookup_insertKV k v tl]

theorem statusFallback_refError (status : Nat) :
    statusFallback status = .error .refErrorT := by
  unfold statusFallback
  split <;> rfl

theorem noDoubleNewline_nl_cons (c : Char) (hc : ¬ c = '\n') (z : List Char) :
    noDoubleNewline ('\n' :: c :: z) = noDoubleNewline (c :: z) := by
  rw [noDoubleNewline]
  simp [hc]

/-!
# Claims
-/

/-- C1 counterexample: `parseVocabulary "a;b\ncccc\nd;e"` yields 3 entries,
not 2 — the `;`-less line `cccc` is not dropped; it contributes an entry with
`translated = undefined` (so the presence/non-emptiness invariant fails
too). -/
theorem C1_counterexample :
    (parseVocabulary (String.toList "a;b\ncccc\nd;e")).length = 3 ∧
    (parseVocabulary (String.toList "a;b\ncccc\nd;e")).map (fun e => e.translated) =
      [some (String.toList "b"), none, some (String.toList "e")] := by
  constructor <;> decide

/-- C1 (amended): `parseVocabulary` drops only empty lines; a trimmed
non-empty line with no `;` is kept as an entry whose `translated` field is
`undefined`, so parsing `"a;b\ncccc\nd;e"` yields exactly 3 entries and the
both-fields-present invariant does not hold. -/
theorem C1_amended :
    (∀ line : List Char, ';' ∉ line → (lineToEntry line).translated = none) ∧
    parseVocabulary (String.toList "a;b\ncccc\nd;e") =
      [{ original := String.toList "a", translated := some (String.toList "b"),
         baseForm := some (String.toList "a"), selected := false },
       { original := String.toList "cccc", translated := none,
         baseForm := some (String.toList "cccc"), selected := false },
       { original := String.toList "d", translated := some (String.toList "e"),
         baseForm := some (String.toList "d"), selected := false }] := by
  constructor
  · intro line h
    rw [lineToEntry_translated, splitOnChar_no_sep ';' line h]
    rfl
  · decide

/-- C1 witness: the amended universal applied to the concrete line `cccc`. -/
theorem C1_witness : (lineToEntry (String.toList "cccc")).translated = none :=
  C1_amended.1 (String.toList "cccc") (by decide)

/-- C2 counterexample: `resetApp` does not clear `deckName` — from a `result`
state with `deckName = "Tiere"`, the reset keeps `deckName = "Tiere"`,
refuting the claim that it returns to empty. -/
theorem C2_counterexample :
    (handleEvent {
        step := .result, selectedLanguage := none, processing := [],
        downloadUrl := some [], extractedWords := [], deckName := String.toList "Tiere",
        inputText := [] } .reset).1.deckName = String.toList "Tiere" ∧
    String.toList "Tiere" ≠ [] := ⟨rfl, by decide⟩

/-- C2 (amended): from `result` the explicit reset is the only exit (every
other event leaves the state untouched), and it returns to `language`
clearing `selectedLanguage` and `extractedWords` — but `deckName` persists
unchanged (`resetApp` never resets it). -/
theorem C2_amended :
    ∀ (s : AppState) (e : Event), s.step = .result →
      (e ≠ .reset → handleEvent s e = (s, [])) ∧
      handleEvent s .reset = (resetApp s, []) ∧
      (resetApp s).step = .language ∧ (resetApp s).selectedLanguage = none ∧
      (resetApp s).extractedWords = [] ∧ (resetApp s).deckName = s.deckName := by
  intro s e hs
  obtain ⟨st, sl, pr, du, ew, dn, it⟩ := s
  have hst : st = .result := hs
  subst hst
  refine ⟨?_, rfl, rfl, rfl, rfl, rfl⟩
  intro hne
  cases e with
  | selectLanguage lang => rfl
  | chooseTextInput => rfl
  | submitText txt => rfl
  | chooseDeckType ty n r => rfl
  | submitSelection w f => rfl
  | reset => exact absurd rfl hne

/-- C2 witness: the amended theorem applied at a concrete `result` state and
a non-reset event. -/
theorem C2_witness :
    handleEvent {
      step := .result, selectedLanguage := none, processing := [],
      downloadUrl := some [], extractedWords := [], deckName := [], inputText := [] }
      .chooseTextInput =
      ({
        step := .result, selectedLanguage := none, processing := [],
        downloadUrl := some [], extractedWords := [], deckName := [],
        inputText := [] }, []) :=
  (C2_amended {
      step := .result, selectedLanguage := none, processing := [],
      downloadUrl := some [], extractedWords := [], deckName := [], inputText := [] }
    .chooseTextInput rfl).1 (by decide)

/-- C3 counterexample: a response with HTTP 413 whose `ArrayBuffer` body does
not decode as JSON is classified with the raw decoded text (`"oops"`) as the
message, not as `PayloadTooLarge` (`t('List too large')`): the inner `catch`
sets `errorMessage = text` and the status table is never consulted. -/
theorem C3_counterexample :
    classifyApiFailure {
      response := some { status := 413, data := .buffer (String.toList "oops") .fail },
      code := none, hasRequest := true, message := [] } =
      .thrown (String.toList "oops") ∧
    String.toList "oops" ≠ listTooLargeKey := ⟨rfl, by decide⟩

/-- C3 (amended): a decodable structured body does take precedence — a JSON
body whose `error` field is a non-empty string yields exactly that string as
the message regardless of the status code; but an `ArrayBuffer` body that
cannot be decoded as JSON yields the raw decoded text (the status-code table
is not consulted for buffer bodies), so a 413 with no decodable body is
reported with the body text, never as `PayloadTooLarge`. -/
theorem C3_amended :
    (∀ (status : Nat) (text msg : List Char) (m : Option (List Char))
        (co : Option (List Char)) (hr : Bool) (me : List Char), msg ≠ [] →
      classifyApiFailure {
        response := some { status := status, data := .buffer text (.obj (some msg) m) },
        code := co, hasRequest := hr, message := me } = .thrown msg) ∧
    (∀ (status : Nat) (text : List Char) (co : Option (List Char))
        (hr : Bool) (me : List Char),
      classifyApiFailure {
        response := some { status := status, data := .buffer text .fail },
        code := co, hasRequest := hr, message := me } = .thrown text) := by
  constructor
  · intro status text msg m co hr me hmsg
    simp [classifyApiFailure, classifyBuffer, bufferTryBody, jsTruthy, hmsg]
  · intro status text co hr me
    rfl

/-- C3 witness: the amended theorem applied at status 413 with body
`{error: "too big"}`. -/
theorem C3_witness :
    classifyApiFailure {
      response := some {
        status := 413,
        data := .buffer (String.toList "irrelevant")
          (.obj (some (String.toList "too big")) none) },
      code := none, hasRequest := false, message := [] } =
      .thrown (String.toList "too big") :=
  C3_amended.1 413 (String.toList "irrelevant") (String.toList "too big") none
    none false [] (by decide)

/-- C4 counterexample: `parseQA "hello"` (one block of a single line) does
not produce a malformed record — it throws (TypeError on
`undefined.replace`), refuting totality and pass-through. -/
theorem C4_counterexample : parseQA (String.toList "hello") = .error () := by decide

/-- C4 (amended): `parseQA` is not total: any non-empty block without a
newline (fewer than two lines) makes the whole parse throw; a block with two
or more lines yields a record built from its first two lines only (extra
lines silently discarded), with no filtering of malformed two-line blocks. -/
theorem C4_amended :
    (∀ input b : List Char, b ∈ splitBlankLine input → b ≠ [] → '\n' ∉ b →
      parseQA input = .error ()) ∧
    (∀ l1 tail : List Char, '\n' ∉ l1 →
      blockToPair (l1 ++ '\n' :: tail) =
        .ok { original := jsTrim (replaceFirst aMark ((splitOnChar '\n' tail).headD []))
              translated := some (jsTrim (replaceFirst fMark l1))
              baseForm := none
              selected := false }) :=
  ⟨parseQA_error_of_bad_block, blockToPair_two_lines⟩

/-- C4 witness: the amended theorem applied to the one-line input `hello` and
a three-line block. -/
theorem C4_witness :
    parseQA (String.toList "hello") = .error () ∧
    blockToPair (String.toList "F: q\nA: a\nextra") =
      .ok { original := jsTrim (replaceFirst aMark
              ((splitOnChar '\n' (String.toList "A: a\nextra")).headD []))
            translated := some (jsTrim (replaceFirst fMark (String.toList "F: q")))
            baseForm := none
            selected := false } :=
  ⟨C4_amended.1 (String.toList "hello") (String.toList "hello")
      (by decide) (by decide) (by decide),
   C4_amended.2 (String.toList "F: q") (String.toList "A: a\nextra") (by decide)⟩

/-- C5 counterexample: for the plain line `d;e` the entry's `baseForm` is
`"d"`, not `undefined` — the lhs regex always matches, so `baseForm` is
always populated. -/
theorem C5_counterexample :
    parseVocabulary (String.toList "d;e") =
      [{ original := String.toList "d", translated := some (String.toList "e"),
         baseForm := some (String.toList "d"), selected := false }] ∧
    (parseVocabulary (String.toList "d;e")).map (fun e => e.baseForm) ≠ [none] := by
  constructor <;> decide

/-- C5 (amended): a line `base (orig);trans` yields
`{original: orig, translated: trim trans, baseForm: base}` as claimed; a
plain line `word;trans` yields `{original: word, translated: trim trans}`
with `baseForm = word` (the whole lhs), not `undefined`. -/
theorem C5_amended :
    (∀ (c0 : Char) (b1 orig trans : List Char),
      jsIsSpace c0 = false → noTrailingWs (c0 :: b1) = true →
      '(' ∉ (c0 :: b1) → ';' ∉ (c0 :: b1) → '\n' ∉ (c0 :: b1) →
      orig ≠ [] → ';' ∉ orig → '\n' ∉ orig →
      ';' ∉ trans → '\n' ∉ trans → noTrailingWs trans = true →
      parseVocabulary (((c0 :: b1) ++ ' ' :: '(' :: (orig ++ [')'])) ++ ';' :: trans) =
        [{ original := orig, translated := some (jsTrim trans),
           baseForm := some (c0 :: b1), selected := false }]) ∧
    (∀ (c0 : Char) (w1 trans : List Char),
      jsIsSpace c0 = false → noTrailingWs (c0 :: w1) = true →
      (c0 :: w1).getLast? ≠ some ')' →
      ';' ∉ (c0 :: w1) → '\n' ∉ (c0 :: w1) →
      ';' ∉ trans → '\n' ∉ trans → noTrailingWs trans = true →
      parseVocabulary ((c0 :: w1) ++ ';' :: trans) =
        [{ original := c0 :: w1, translated := some (jsTrim trans),
           baseForm := some (c0 :: w1), selected := false }]) :=
  ⟨parseVocabulary_paren_line, parseVocabulary_plain_line⟩

/-- C5 witness: the amended theorem applied to the two concrete lines
`base (orig);translation` and `word;translation`. -/
theorem C5_witness :
    parseVocabulary (String.toList "base (orig);translation") =
      [{ original := String.toList "orig",
         translated := some (String.toList "translation"),
         baseForm := some (String.toList "base"), selected := false }] ∧
    parseVocabulary (String.toList "word;translation") =
      [{ original := String.toList "word",
         translated := some (String.toList "translation"),
         baseForm := some (String.toList "word"), selected := false }] :=
  ⟨C5_amended.1 'b' (String.toList "ase") (String.toList "orig")
      (String.toList "translation") (by decide) (by decide) (by decide) (by decide)
      (by decide) (by decide) (by decide) (by decide) (by decide) (by decide)
      (by decide),
   C5_amended.2 'w' (String.toList "ord") (String.toList "translation")
      (by decide) (by decide) (by decide) (by decide) (by decide) (by decide)
      (by decide) (by decide)⟩

/-- C6 counterexample: on `a;b;c` the `translated` field is `"b"`, not
`"b;c"` — `split(';')` cuts at every `;` and only the second segment is
kept; the text after the second `;` is discarded, not kept in the rhs. -/
theorem C6_counterexample :
    (parseVocabulary (String.toList "a;b;c")).map (fun e => e.translated) =
      [some (String.toList "b")] ∧
    some (String.toList "b") ≠ some (String.toList "b;c") := by
  constructor <;> decide

/-- C6 (amended): for a line with more than one `;` the lhs is the first
segment and `translated` is the (trimmed) second segment only; everything
after the second `;` is silently discarded. -/
theorem C6_amended :
    ∀ a b c : List Char, ';' ∉ a → ';' ∉ b → '\n' ∉ a → '\n' ∉ b → '\n' ∉ c →
      (parseVocabulary (a ++ ';' :: (b ++ ';' :: c))).map (fun e => e.translated) =
        [some (jsTrim b)] :=
  vocabLine_second_segment

/-- C6 witness: the amended theorem applied to `a;b;c`. -/
theorem C6_witness :
    (parseVocabulary (String.toList "a;b;c")).map (fun e => e.translated) =
      [some (jsTrim (String.toList "b"))] :=
  C6_amended (String.toList "a") (String.toList "b") (String.toList "c")
    (by decide) (by decide) (by decide) (by decide) (by decide)

/-- C7: `buildPayload` maps `translated.trim() → original.trim()` for every
entry ignoring the `selected` flag; appending an entry overwrites any earlier
binding of the same (trimmed) `translated` key, so the later entry wins under
lookup; on the two `haus` entries the mapping is `{"haus": "house2"}`
(determinism is inherent: the builder is a pure function of its input). -/
theorem C7_buildPayload :
    (∀ (entries : List Entry) (b : Bool) (deckName : List Char),
      buildPayload (entries.map fun e => { e with selected := b }) deckName =
        buildPayload entries deckName) ∧
    (∀ (entries : List Entry) (m : List (List Char × List Char)) (e : Entry)
        (t : List Char),
      buildVocabObject entries = .ok m → e.translated = some t →
      buildVocabObject (entries ++ [e]) =
        .ok (insertKV (jsTrim t) (jsTrim e.original) m) ∧
      jsLookup (jsTrim t) (insertKV (jsTrim t) (jsTrim e.original) m) =
        some (jsTrim e.original)) ∧
    buildPayload
      [{ original := String.toList "house", translated := some (String.toList "haus"),
         baseForm := none, selected := true },
       { original := String.toList "house2", translated := some (String.toList "haus"),
         baseForm := none, selected := false }] (String.toList "X") =
      .ok { deck_name := String.toList "X",
            vocabulary := [(String.toList "haus", String.toList "house2")] } := by
  refine ⟨?_, ?_, ?_⟩
  · intro entries b deckName
    unfold buildPayload buildVocabObject
    rw [buildVocabAux_ignores_selected b entries []]
  · intro entries m e t hok htr
    constructor
    · unfold buildVocabObject at hok ⊢
      rw [buildVocabAux_append entries [] m hok [e], buildVocabAux, htr]
      rfl
    · exact jsLookup_insertKV (jsTrim t) (jsTrim e.original) m
  · decide

/-- C7 witness: the universal parts applied at concrete entries — the
`selected` flag is irrelevant and the appended duplicate key overwrites. -/
theorem C7_witness :
    buildPayload
        (([{ original := String.toList "house",
             translated := some (String.toList "haus"),
             baseForm := none, selected := true }] : List Entry).map
          fun e => { e with selected := false })
        [] =
      buildPayload
        [{ original := String.toList "house", translated := some (String.toList "haus"),
           baseForm := none, selected := true }] [] ∧
    buildVocabObject
        ([{ original := String.toList "house", translated := some (String.toList "haus"),
            baseForm := none, selected := true }] ++
          [{ original := String.toList "house2",
             translated := some (String.toList "haus"),
             baseForm := none, selected := false }]) =
      .ok (insertKV (jsTrim (String.toList "haus")) (jsTrim (String.toList "house2"))
        [(String.toList "haus", String.toList "house")]) :=
  ⟨C7_buildPayload.1
      ([{
        original := String.toList "house", translated := some (String.toList "haus"),
        baseForm := none, selected := true }] : List Entry)
      false [],
   (C7_buildPayload.2.1
      ([{
        original := String.toList "house", translated := some (String.toList "haus"),
        baseForm := none, selected := true }] : List Entry)
      [(String.toList "haus", String.toList "house")]
      ({
        original := String.toList "house2", translated := some (String.toList "haus"),
        baseForm := none, selected := false } : Entry)
      (String.toList "haus") (by decide) rfl).1⟩

/-- C8: submitting from `selection` with every entry deselected alerts the
validation error, performs no deck-service request, and leaves the state
(including `step = selection`) unchanged. -/
theorem C8_empty_selection_blocked :
    ∀ (s : AppState) (words : List Entry) (apiFail : Option (List Char)),
      s.step = .selection → words.filter (fun w => w.selected) = [] →
      handleEvent s (.submitSelection words apiFail) =
        (s, [.alertError pleaseSelectMsg]) ∧
      (handleEvent s (.submitSelection words apiFail)).1.step = .selection ∧
      ∀ (w : List Entry) (d : List Char),
        Effect.apiRequest w d ∉ (handleEvent s (.submitSelection words apiFail)).2 := by
  intro s words apiFail hs hempty
  obtain ⟨st, sl, pr, du, ew, dn, it⟩ := s
  have hst : st = .selection := hs
  subst hst
  have h1 : handleEvent
      { step := .selection, selectedLanguage := sl, processing := pr, downloadUrl := du,
        extractedWords := ew, deckName := dn, inputText := it }
      (.submitSelection words apiFail) =
      ({ step := .selection, selectedLanguage := sl, processing := pr, downloadUrl := du,
         extractedWords := ew, deckName := dn, inputText := it },
       [.alertError pleaseSelectMsg]) := by
    simp [handleEvent, hempty]
  refine ⟨h1, by rw [h1], ?_⟩
  intro w d
  rw [h1]
  simp

/-- C8 witness: the theorem applied at a concrete `selection` state with one
deselected entry. -/
theorem C8_witness :
    handleEvent {
      step := .selection, selectedLanguage := none, processing := [],
      downloadUrl := some [], extractedWords := [], deckName := [], inputText := [] }
      (.submitSelection
        [{
          original := String.toList "x", translated := some (String.toList "y"),
          baseForm := none, selected := false }]
        none) =
      ({
        step := .selection, selectedLanguage := none, processing := [],
        downloadUrl := some [], extractedWords := [], deckName := [],
        inputText := [] }, [.alertError pleaseSelectMsg]) :=
  (C8_empty_selection_blocked
    {
      step := .selection, selectedLanguage := none, processing := [],
      downloadUrl := some [], extractedWords := [], deckName := [], inputText := [] }
    [{
      original := String.toList "x", translated := some (String.toList "y"),
      baseForm := none, selected := false }] none rfl (by decide)).1

/-- C9: a well-formed two-line Q&A block `F: q\nA: a` parses to a single
record with the `F: ` marker stripped from the question (stored in
`translated`) and the `A: ` marker stripped from the answer (stored in
`original`), both trimmed. -/
theorem C9_qa_two_line_block (q a : List Char) (hq : '\n' ∉ q) (ha : '\n' ∉ a) :
    parseQA (fMark ++ (q ++ '\n' :: (aMark ++ a))) =
      .ok [{ original := jsTrim a, translated := some (jsTrim q),
             baseForm := none, selected := false }] := by
  have hfa : '\n' ∉ fMark := by decide
  have haa : '\n' ∉ aMark := by decide
  have hnd : noDoubleNewline (fMark ++ (q ++ '\n' :: (aMark ++ a))) = true := by
    rw [noDoubleNewline_append fMark hfa, noDoubleNewline_append q hq,
      show aMark ++ a = 'A' :: ':' :: ' ' :: a from rfl,
      noDoubleNewline_nl_cons 'A' (by decide), noDoubleNewline_cons 'A' (by decide),
      noDoubleNewline_cons ':' (by decide), noDoubleNewline_cons ' ' (by decide)]
    exact noDoubleNewline_of_no_newline a ha
  have hne : fMark ++ (q ++ '\n' :: (aMark ++ a)) ≠ [] := by simp [fMark]
  have hra : replaceFirst aMark (aMark ++ a) = a := replaceFirst_of_pre 'A' [':', ' '] a
  have hrf : replaceFirst fMark (fMark ++ q) = q := replaceFirst_of_pre 'F' [':', ' '] q
  rw [parseQA_single_block _ hnd hne,
    show fMark ++ (q ++ '\n' :: (aMark ++ a)) = (fMark ++ q) ++ '\n' :: (aMark ++ a)
      from by simp, mapExcept,
    blockToPair_two_lines (fMark ++ q) (aMark ++ a) (not_mem_append hfa hq),
    splitOnChar_no_sep '\n' (aMark ++ a) (not_mem_append haa ha)]
  simp [mapExcept, hra, hrf]

/-- C9 witness: the theorem applied to the spec's example
`"F: Q (Qt)\nA: Ans (At)"`. -/
theorem C9_witness :
    parseQA (String.toList "F: Q (Qt)\nA: Ans (At)") =
      .ok [{ original := String.toList "Ans (At)",
             translated := some (String.toList "Q (Qt)"),
             baseForm := none, selected := false }] :=
  C9_qa_two_line_block (String.toList "Q (Qt)") (String.toList "Ans (At)")
    (by decide) (by decide)

/-- C10: every arm of the status-code fallback table (400, 413, 415, 429,
500 and the default) and every transport-failure branch (`ECONNABORTED`,
`ERR_NETWORK`, request-sent-but-no-response) applies the unbound identifier
`t`, so any error classified through those branches makes
`sendRequestToApi` throw an uncaught `ReferenceError` instead of the
classified message. -/
theorem C10_unbound_t :
    (∀ status : Nat, statusFallback status = .error .refErrorT) ∧
    (∀ (status : Nat) (fields : Option (Option (List Char) × Option (List Char)))
        (co : Option (List Char)) (hr : Bool) (me : List Char),
      jsTruthy (fields.bind (·.1)) = none → jsTruthy (fields.bind (·.2)) = none →
      classifyApiFailure {
        response := some { status := status, data := .plain fields },
        code := co, hasRequest := hr, message := me } = .refErrorEscaped) ∧
    (∀ (co : Option (List Char)) (hr : Bool) (me : List Char),
      co = some econnAbortedKey ∨ co = some errNetworkKey ∨
        (co ≠ some econnAbortedKey ∧ co ≠ some errNetworkKey ∧ hr = true) →
      classifyApiFailure {
        response := none, code := co, hasRequest := hr,
        message := me } = .refErrorEscaped) := by
  refine ⟨statusFallback_refError, ?_, ?_⟩
  · intro status fields co hr me h1 h2
    have hp : plainBody fields = .error .refErrorT := by
      unfold plainBody
      rw [h1, h2]
      rfl
    simp [classifyApiFailure, hp, statusFallback_refError]
  · intro co hr me h
    rcases h with h | h | ⟨h1, h2, h3⟩
    · subst h
      rfl
    · subst h
      rfl
    · subst h3
      simp only [classifyApiFailure]
      rw [if_neg h1, if_neg h2, if_pos trivial]
      rfl

/-- C10 witness: the theorem applied at concrete errors for the table, the
timeout code, and the request-without-response case. -/
theorem C10_witness :
    statusFallback 413 = .error .refErrorT ∧
    classifyApiFailure {
      response := some { status := 500, data := .plain none },
      code := none, hasRequest := true, message := [] } = .refErrorEscaped ∧
    classifyApiFailure {
      response := none, code := some econnAbortedKey,
      hasRequest := false, message := [] } = .refErrorEscaped ∧
    classifyApiFailure {
      response := none, code := none, hasRequest := true,
      message := [] } = .refErrorEscaped :=
  ⟨C10_unbound_t.1 413,
   C10_unbound_t.2.1 500 none none true [] rfl rfl,
   C10_unbound_t.2.2 (some econnAbortedKey) false [] (Or.inl rfl),
   C10_unbound_t.2.2 none true [] (Or.inr (Or.inr ⟨by decide, by decide, rfl⟩))⟩

end Anki
